import Mathlib

/-!
Shallow embedding of the identifier-resolution and report-fallback core of
`src/app.py` (a DART financial-statement lookup tool), together with theorems
settling the specification claims about it.

Strings are modelled with Lean `String`; Python `a in b` (substring test) is
modelled as list-infix on the character lists, and Python `str.lower()` as a
character-wise `Char.toLower` (the strings involved are Korean plus basic
Latin, where the two coincide).
-/

/-- Python `needle in hay` on strings: contiguous-substring test. -/
def pyIn (needle hay : String) : Bool :=
  decide (needle.toList <:+: hay.toList)

/-- Python `s.lower()`, viewed as the lowered character list. -/
def lowerStr (s : String) : List Char :=
  s.toList.map Char.toLower

/-- The curated table `major_companies` of `src/app.py` (lines 21-28), in its
insertion (= iteration) order. -/
def major_companies : List (String × String) :=
  [("삼성전자", "00126380"), ("현대자동차", "00164742"), ("SK하이닉스", "00164779"),
   ("LG전자", "00356361"), ("NAVER", "00311863"), ("카카오", "00341682")]

/-- One `<corp>` record of the bulk reference table `CORPCODE.xml`. -/
structure RawCorp where
  corp_name : String
  corp_code : String
  stock_code : String
deriving DecidableEq

/-- One result dict built by `search_companies` (lines 72-77). -/
structure CorpEntry where
  corp_name : String
  corp_code : String
  stock_code : String
  is_listed : Bool
deriving DecidableEq

/-- `stock_code and stock_code.strip() != ''` (line 71): the stock code has at
least one non-whitespace character. -/
def isListedStock (stock_code : String) : Bool :=
  stock_code.toList.any (fun c => !c.isWhitespace)

/-- Build the result dict of lines 72-77 from a raw record. -/
def toEntry (c : RawCorp) : CorpEntry :=
  ⟨c.corp_name, c.corp_code, c.stock_code, isListedStock c.stock_code⟩

/-- The match test of line 70: `company_name.lower() in corp_name.lower()`. -/
def bulkMatch (company_name : String) (c : RawCorp) : Bool :=
  decide (lowerStr company_name <:+: lowerStr c.corp_name)

/-- The matching result dicts, in table order (the loop of lines 64-77). -/
def bulkEntries (company_name : String) (entries : List RawCorp) : List CorpEntry :=
  (entries.filter (bulkMatch company_name)).map toEntry

/-- The Python sort key of line 80: `(not is_listed, abs(len(corp_name) - len(query)))`. -/
def resultKey (company_name : String) (e : CorpEntry) : Nat × Nat :=
  ((if e.is_listed then 0 else 1), Nat.dist e.corp_name.length company_name.length)

/-- Lexicographic comparison of the sort keys, as Python tuple `<=` does. -/
def resultLE (company_name : String) (a b : CorpEntry) : Prop :=
  (resultKey company_name a).1 < (resultKey company_name b).1 ∨
    ((resultKey company_name a).1 = (resultKey company_name b).1 ∧
      (resultKey company_name a).2 ≤ (resultKey company_name b).2)

instance (company_name : String) : DecidableRel (resultLE company_name) := fun a b => by
  unfold resultLE; exact inferInstance

/-- Messages shown through `st.error` / `st.warning` / `st.info`.  The
interpolated details (exception text, HTTP code) are dropped; only the fixed
message prefix is kept. -/
inductive Msg where
  | error (text : String)
  | warning (text : String)
  | info (text : String)
deriving DecidableEq

/-- How far the bulk reference download of `search_companies` gets: the
`requests.get` (or anything before it) raises, or an HTTP response arrives
with a status code and a payload. -/
inductive BulkPayload where
  | badZip
  | badXml
  | corps (entries : List RawCorp)
deriving DecidableEq

inductive BulkFetch where
  | raised
  | got (status_code : Nat) (payload : BulkPayload)
deriving DecidableEq

/-- `search_companies` (lines 31-89): returns the result list and the messages
it displayed.  All failure branches return `[]`, each with its own error
message; the success branch filters, sorts by `resultKey` (Python's stable
`list.sort`) and truncates to 10. -/
def search_companies (company_name : String) (bulk : BulkFetch) :
    List CorpEntry × List Msg :=
  match bulk with
  | .raised => ([], [Msg.error "회사 검색 중 오류 발생"])
  | .got status_code payload =>
    if status_code ≠ 200 then ([], [Msg.error "회사 목록 다운로드 오류"])
    else
      match payload with
      | .badZip => ([], [Msg.error "ZIP 파일 압축 해제 오류"])
      | .badXml => ([], [Msg.error "XML 파싱 오류"])
      | .corps entries =>
        ((List.insertionSort (resultLE company_name) (bulkEntries company_name entries)).take 10,
          [])

/-- Outbound network calls the resolver can make. -/
inductive NetCall where
  | corporationJson
  | corpCodeBulk
deriving DecidableEq

/-- The tier-3 `corporation.json` lookup: either `requests.get`/`.json()`
raised, or a JSON object arrived with an optional `status` field and an
optional `list` field (list items only have their `corp_code` used). -/
structure Tier3Item where
  corp_code : String
deriving DecidableEq

inductive Tier3Result where
  | raised
  | data (status : Option String) (lst : Option (List Tier3Item))
deriving DecidableEq

/-- The candidate tier 3 would return: `data['list'][0]['corp_code']` when
`status == '000'` and the list is present and non-empty (lines 116-118). -/
def tier3Yields : Tier3Result → Option String
  | .raised => none
  | .data status lst =>
    if status = some "000" then
      match lst with
      | some (item :: _) => some item.corp_code
      | _ => none
    else none

/-- Outcome of `get_company_code`, as seen by the caller (the `st.radio`
disambiguation of lines 130-139 is surfaced as the candidate list). -/
inductive ResolveResult where
  | found (code : String)
  | ambiguous (options : List CorpEntry)
  | notFound
deriving DecidableEq

/-- Tier 4 of `get_company_code` (lines 122-141): run `search_companies` and
dispatch on the number of results. -/
def tier4_resolve (company_name : String) (bulk : BulkFetch) :
    ResolveResult × List NetCall × List Msg :=
  match (search_companies company_name bulk).1 with
  | [] => (.notFound, [.corporationJson, .corpCodeBulk],
      Msg.info "회사를 API를 통해 검색 중입니다" :: (search_companies company_name bulk).2)
  | [r] => (.found r.corp_code, [.corporationJson, .corpCodeBulk],
      Msg.info "회사를 API를 통해 검색 중입니다" :: (search_companies company_name bulk).2)
  | r1 :: r2 :: rest => (.ambiguous (r1 :: r2 :: rest), [.corporationJson, .corpCodeBulk],
      (Msg.info "회사를 API를 통해 검색 중입니다" :: (search_companies company_name bulk).2) ++
        [Msg.warning "유사한 회사가 여러 개 있습니다"])

/-- `get_company_code` (lines 92-141).  Tier 1: exact dict hit.  Tier 2: first
curated entry related to the query by case-sensitive containment either way.
Tier 3: `corporation.json` (first candidate on success).  Tier 4: bulk search.
Alongside the result it returns the outbound calls issued and messages shown. -/
def get_company_code (company_name : String) (t3 : Tier3Result) (bulk : BulkFetch) :
    ResolveResult × List NetCall × List Msg :=
  match major_companies.lookup company_name with
  | some code => (.found code, [], [])
  | none =>
    match major_companies.find? (fun nc => pyIn company_name nc.1 || pyIn nc.1 company_name) with
    | some nc => (.found nc.2, [], [])
    | none =>
      match t3 with
      | .raised => tier4_resolve company_name bulk
      | .data status lst =>
        if status = some "000" then
          match lst with
          | some (item :: _) =>
              (.found item.corp_code, [.corporationJson],
                [Msg.info "회사를 API를 통해 검색 중입니다"])
          | _ => tier4_resolve company_name bulk
        else tier4_resolve company_name bulk

/-! ### Report fetcher (`get_financial_statement`, lines 144-199) -/

/-- One row of the `list` field of a statement response: its fields as
(column, value) pairs. -/
abbrev Row := List (String × String)

/-- The query parameters that vary over the fallback cascade (lines 147-153);
`crtfc_key` is constant and omitted.  `bsns_year` is an `Int` because Python
computes `year - 1` without truncation. -/
structure ReportParams where
  corp_code : String
  bsns_year : Int
  reprt_code : String
  fs_div : String
deriving DecidableEq

/-- A parsed JSON response: an optional `status` field and an optional `list`
field. -/
structure DartResponse where
  status : Option String
  rows : Option (List Row)
deriving DecidableEq

/-- `'status' in data and data['status'] != '000'` (lines 160, 167, 174, 180, 187). -/
def statusFailed (d : DartResponse) : Bool :=
  match d.status with
  | some s => s != "000"
  | none => false

/-- The final checks of lines 187-196: failing status → `None`; missing or
empty `list` → `None`; otherwise the rows. -/
def fetchFinal (d : DartResponse) : Option (List Row) :=
  if statusFailed d then none
  else
    match d.rows with
    | some (r :: rs) => some (r :: rs)
    | _ => none

/-- `get_financial_statement` (lines 144-199), over a backend oracle mapping
each request to `none` (the `requests.get`/`.json()` call raised, caught by
the enclosing `try` at line 155, so the function returns `None`) or `some`
parsed response.  Returns the result together with the list of requests
issued, in order.  `todayYear` is `datetime.today().year` (line 180). -/
def get_financial_statement (backend : ReportParams → Option DartResponse)
    (todayYear : Int) (corp_code : String) (year : Int) :
    Option (List Row) × List ReportParams :=
  let p1 : ReportParams := ⟨corp_code, year, "11011", "CFS"⟩
  match backend p1 with
  | none => (none, [p1])
  | some d1 =>
    if statusFailed d1 then
      let p2 : ReportParams := ⟨corp_code, year, "11011", "OFS"⟩
      match backend p2 with
      | none => (none, [p1, p2])
      | some d2 =>
        if statusFailed d2 then
          let p3 : ReportParams := ⟨corp_code, year, "11014", "OFS"⟩
          match backend p3 with
          | none => (none, [p1, p2, p3])
          | some d3 =>
            if statusFailed d3 then
              let p4 : ReportParams := ⟨corp_code, year, "11013", "OFS"⟩
              match backend p4 with
              | none => (none, [p1, p2, p3, p4])
              | some d4 =>
                if statusFailed d4 ∧ year = todayYear then
                  let p5 : ReportParams := ⟨corp_code, year - 1, "11011", "OFS"⟩
                  match backend p5 with
                  | none => (none, [p1, p2, p3, p4, p5])
                  | some d5 => (fetchFinal d5, [p1, p2, p3, p4, p5])
                else (fetchFinal d4, [p1, p2, p3, p4])
            else (fetchFinal d3, [p1, p2, p3])
        else (fetchFinal d2, [p1, p2])
    else (fetchFinal d1, [p1])

/-- Run a list of request variants in order: stop with `none` on a transport
error, recurse on a failing status, stop with `fetchFinal` on a non-failing
status; an exhausted list is the final failing-status `None` of line 189. -/
def runCascade (backend : ReportParams → Option DartResponse) :
    List ReportParams → List ReportParams → Option (List Row) × List ReportParams
  | [], trace => (none, trace)
  | p :: rest, trace =>
    match backend p with
    | none => (none, trace ++ [p])
    | some d =>
      if statusFailed d then runCascade backend rest (trace ++ [p])
      else (fetchFinal d, trace ++ [p])

/-- The variant list the code actually walks: annual consolidated, annual
standalone, report codes `11014` then `11013` (both standalone by
inheritance), and — only when `year` is the current year — a single prior-year
annual retry that keeps the inherited `OFS` scope. -/
def cascadeVariants (corp_code : String) (year todayYear : Int) : List ReportParams :=
  [⟨corp_code, year, "11011", "CFS"⟩, ⟨corp_code, year, "11011", "OFS"⟩,
   ⟨corp_code, year, "11014", "OFS"⟩, ⟨corp_code, year, "11013", "OFS"⟩] ++
    (if year = todayYear then [⟨corp_code, year - 1, "11011", "OFS"⟩] else [])

/-- Modelled from the spec (§4.2): the claimed cascade for a current-year
request — `(fiscalYear, Annual, Consolidated)`, `(fiscalYear, Annual,
Standalone)`, `(fiscalYear, Q3, inherited Standalone scope)`, then variants 1
and 2 again with `fiscalYear − 1`; the Q3 report code is `11014`. -/
def specCascade (corp_code : String) (year : Int) : List ReportParams :=
  [⟨corp_code, year, "11011", "CFS"⟩, ⟨corp_code, year, "11011", "OFS"⟩,
   ⟨corp_code, year, "11014", "OFS"⟩,
   ⟨corp_code, year - 1, "11011", "CFS"⟩, ⟨corp_code, year - 1, "11011", "OFS"⟩]

/-- A backend whose every response is a well-formed remote rejection. -/
def failBackend : ReportParams → Option DartResponse :=
  fun _ => some ⟨some "013", none⟩

/-- A non-empty successful row set. -/
def okRows : List Row := [[("sj_nm", "BS"), ("account_nm", "자산총계")]]

/-- A backend that raises on the first (consolidated) request and would answer
every other variant successfully with rows. -/
def cexBackend : ReportParams → Option DartResponse :=
  fun p => if p.fs_div = "CFS" then none else some ⟨some "000", some okRows⟩

/-- A backend whose every response is successful but has an empty row list. -/
def emptyBackend : ReportParams → Option DartResponse :=
  fun _ => some ⟨some "000", some []⟩

/-! ### Column projection after a successful fetch (lines 227-236) -/

/-- The column names of one row. -/
def rowKeys (r : Row) : List String := r.map Prod.fst

/-- `pd.DataFrame(rows).columns`: the union of the row keys, in order of first
appearance. -/
def dataFrameColumns (rows : List Row) : List String :=
  rows.foldl (fun acc r => acc ++ (rowKeys r).filter (fun k => !acc.contains k)) []

/-- `desired_columns` (line 228). -/
def desired_columns : List String :=
  ["sj_nm", "account_nm", "thstrm_amount", "frmtrm_amount"]

/-- `available_columns` (line 229): the desired columns present in the frame. -/
def available_columns (cols : List String) : List String :=
  desired_columns.filter (fun c => cols.contains c)

/-- Lines 229-236: keep the desired columns that are present; if none are,
warn and pass every column through. -/
def select_output_columns (cols : List String) : List String × List Msg :=
  if available_columns cols = [] then (cols, [Msg.warning "원하는 열이 데이터에 없습니다"])
  else (available_columns cols, [])

/-! ### Theorems -/

/-- When the static tiers both miss and tier 3 yields no candidate,
`get_company_code` is exactly the tier-4 bulk search. -/
theorem gcc_eq_tier4 (q : String) (t3 : Tier3Result) (bulk : BulkFetch)
    (h1 : major_companies.lookup q = none)
    (h2 : major_companies.find? (fun nc => pyIn q nc.1 || pyIn nc.1 q) = none)
    (h3 : tier3Yields t3 = none) :
    get_company_code q t3 bulk = tier4_resolve q bulk := by
  cases t3 with
  | raised => simp only [get_company_code, h1, h2]
  | data status lst =>
    simp only [tier3Yields] at h3
    by_cases hs : status = some "000"
    · rw [if_pos hs] at h3
      rcases lst with _ | (_ | ⟨it, rest⟩)
      · simp [get_company_code, h1, h2, hs]
      · simp [get_company_code, h1, h2, hs]
      · simp at h3
    · simp [get_company_code, h1, h2, hs]

/-- The calls issued by the tier-4 path, whatever the bulk outcome. -/
theorem tier4_calls (q : String) (bulk : BulkFetch) :
    (tier4_resolve q bulk).2.1 = [.corporationJson, .corpCodeBulk] := by
  rcases h : (search_companies q bulk).1 with _ | ⟨r, _ | ⟨r2, rest⟩⟩ <;>
    simp [tier4_resolve, h]

/-- Claim C8: for every query exactly equal to a curated-table entry's name
(an exact hit in the `major_companies` dict), `get_company_code` returns that
entry's identifier and performs zero outbound network calls. -/
theorem resolve_exact_static (q c : String) (t3 : Tier3Result) (bulk : BulkFetch)
    (h : major_companies.lookup q = some c) :
    get_company_code q t3 bulk = (.found c, [], []) := by
  unfold get_company_code
  rw [h]

/-- Witness for `resolve_exact_static` at the curated query `삼성전자`. -/
theorem resolve_exact_static_witness :
    get_company_code "삼성전자" .raised .raised = (.found "00126380", [], []) :=
  resolve_exact_static "삼성전자" "00126380" .raised .raised (by decide)

/-- Claim C5: a query that is not an exact curated key but stands in a
(case-sensitive) containment relation with some curated entry resolves to the
first such entry in table iteration order (`List.find?` of the table), with
zero outbound network calls — no later tier is consulted. -/
theorem resolve_fuzzy_static (q n c : String) (t3 : Tier3Result) (bulk : BulkFetch)
    (h1 : major_companies.lookup q = none)
    (h2 : major_companies.find? (fun nc => pyIn q nc.1 || pyIn nc.1 q) = some (n, c)) :
    get_company_code q t3 bulk = (.found c, [], []) := by
  unfold get_company_code
  rw [h1, h2]

/-- Witness for `resolve_fuzzy_static`: `삼성` is a proper substring of the
curated `삼성전자` and resolves statically. -/
theorem resolve_fuzzy_static_witness :
    get_company_code "삼성" .raised .raised = (.found "00126380", [], []) :=
  resolve_fuzzy_static "삼성" "삼성전자" "00126380" .raised .raised (by decide) (by decide)

/-- Claim C6: a transport or parsing failure of the tier-3 remote lookup never
aborts resolution — the outcome is identical to a well-formed tier-3 response
carrying no candidate, and the tier-4 bulk search is always consulted. -/
theorem resolve_tier3_failure_continues (q : String) (bulk : BulkFetch)
    (h1 : major_companies.lookup q = none)
    (h2 : major_companies.find? (fun nc => pyIn q nc.1 || pyIn nc.1 q) = none) :
    get_company_code q .raised bulk = get_company_code q (.data none none) bulk ∧
      NetCall.corpCodeBulk ∈ (get_company_code q .raised bulk).2.1 := by
  have e1 : get_company_code q .raised bulk = tier4_resolve q bulk :=
    gcc_eq_tier4 q .raised bulk h1 h2 rfl
  have e2 : get_company_code q (.data none none) bulk = tier4_resolve q bulk :=
    gcc_eq_tier4 q (.data none none) bulk h1 h2 rfl
  refine ⟨e1.trans e2.symm, ?_⟩
  rw [e1, tier4_calls]
  simp

/-- Witness for `resolve_tier3_failure_continues` at a query unknown to every
tier. -/
theorem resolve_tier3_failure_continues_witness :
    get_company_code "서울괴물상사" .raised (.got 200 (.corps [])) =
        get_company_code "서울괴물상사" (.data none none) (.got 200 (.corps [])) ∧
      NetCall.corpCodeBulk ∈
        (get_company_code "서울괴물상사" .raised (.got 200 (.corps []))).2.1 :=
  resolve_tier3_failure_continues "서울괴물상사" (.got 200 (.corps []))
    (by decide) (by decide)

/-- Claim C3: a transport failure of the bulk reference fetch (tier 4) yields
`NotFound` together with a distinct error message, whereas a successful fetch
with no matching record yields `NotFound` with no error message at all — so
"service unavailable" and "no such company" are distinguishable. -/
theorem resolve_reference_unavailable (q : String) (t3 : Tier3Result)
    (h1 : major_companies.lookup q = none)
    (h2 : major_companies.find? (fun nc => pyIn q nc.1 || pyIn nc.1 q) = none)
    (h3 : tier3Yields t3 = none) :
    ((get_company_code q t3 .raised).1 = .notFound ∧
      Msg.error "회사 검색 중 오류 발생" ∈ (get_company_code q t3 .raised).2.2) ∧
    (∀ code payload, code ≠ 200 →
      (get_company_code q t3 (.got code payload)).1 = .notFound ∧
        Msg.error "회사 목록 다운로드 오류" ∈ (get_company_code q t3 (.got code payload)).2.2) ∧
    (∀ entries, entries.filter (bulkMatch q) = [] →
      (get_company_code q t3 (.got 200 (.corps entries))).1 = .notFound ∧
        ∀ s, Msg.error s ∉ (get_company_code q t3 (.got 200 (.corps entries))).2.2) := by
  refine ⟨?_, ?_, ?_⟩
  · rw [gcc_eq_tier4 q t3 .raised h1 h2 h3]
    simp [tier4_resolve, search_companies]
  · intro code payload hcode
    rw [gcc_eq_tier4 q t3 (.got code payload) h1 h2 h3]
    simp [tier4_resolve, search_companies, hcode]
  · intro entries hfil
    rw [gcc_eq_tier4 q t3 (.got 200 (.corps entries)) h1 h2 h3]
    simp [tier4_resolve, search_companies, bulkEntries, hfil]

/-- Witness for `resolve_reference_unavailable` at a query unknown to the
static tiers, with tier 3 raising. -/
theorem resolve_reference_unavailable_witness :
    (get_company_code "서울괴물상사" .raised .raised).1 = .notFound ∧
      Msg.error "회사 검색 중 오류 발생" ∈ (get_company_code "서울괴물상사" .raised .raised).2.2 :=
  (resolve_reference_unavailable "서울괴물상사" .raised
    (by decide) (by decide) rfl).1

/-- The Python tuple order on sort keys is total. -/
theorem resultLE_total (q : String) : ∀ a b : CorpEntry, resultLE q a b ∨ resultLE q b a := by
  intro a b
  unfold resultLE
  omega

/-- The Python tuple order on sort keys is transitive. -/
theorem resultLE_trans (q : String) :
    ∀ a b c : CorpEntry, resultLE q a b → resultLE q b c → resultLE q a c := by
  intro a b c
  unfold resultLE
  omega

/-- Claim C4: once resolution reaches the bulk tier, exactly one matching
record resolves directly to its identifier, and more than one match is
surfaced as an ambiguous candidate list that is sorted by
(listed-before-unlisted, then name-length distance to the query) and holds at
most the top 10 candidates. -/
theorem resolve_bulk_disambiguation (q : String) (t3 : Tier3Result) (entries : List RawCorp)
    (h1 : major_companies.lookup q = none)
    (h2 : major_companies.find? (fun nc => pyIn q nc.1 || pyIn nc.1 q) = none)
    (h3 : tier3Yields t3 = none) :
    (∀ e, bulkEntries q entries = [e] →
      get_company_code q t3 (.got 200 (.corps entries)) =
        (.found e.corp_code, [.corporationJson, .corpCodeBulk],
          [Msg.info "회사를 API를 통해 검색 중입니다"])) ∧
    (2 ≤ (bulkEntries q entries).length →
      ∃ cand, (get_company_code q t3 (.got 200 (.corps entries))).1 = .ambiguous cand ∧
        cand.length ≤ 10 ∧ cand.length = min 10 (bulkEntries q entries).length ∧
        List.Sorted (resultLE q) cand ∧ ∀ e ∈ cand, e ∈ bulkEntries q entries) := by
  rw [gcc_eq_tier4 q t3 (.got 200 (.corps entries)) h1 h2 h3]
  constructor
  · intro e he
    simp [tier4_resolve, search_companies, he]
  · intro hlen
    haveI : IsTotal CorpEntry (resultLE q) := ⟨resultLE_total q⟩
    haveI : IsTrans CorpEntry (resultLE q) := ⟨resultLE_trans q⟩
    have hperm := List.perm_insertionSort (resultLE q) (bulkEntries q entries)
    have hsorted := List.sorted_insertionSort (resultLE q) (bulkEntries q entries)
    have hres : (search_companies q (.got 200 (.corps entries))).1 =
        (List.insertionSort (resultLE q) (bulkEntries q entries)).take 10 := by
      simp [search_companies]
    have htlen : ((List.insertionSort (resultLE q) (bulkEntries q entries)).take 10).length =
        min 10 (bulkEntries q entries).length := by
      rw [List.length_take, hperm.length_eq]
    have h2' : 2 ≤ ((List.insertionSort (resultLE q) (bulkEntries q entries)).take 10).length := by
      rw [htlen]
      omega
    rcases ht : (List.insertionSort (resultLE q) (bulkEntries q entries)).take 10
        with _ | ⟨r1, _ | ⟨r2, rest⟩⟩
    · rw [ht] at h2'
      simp at h2'
    · rw [ht] at h2'
      simp at h2'
    · refine ⟨r1 :: r2 :: rest, ?_, ?_, ?_, ?_, ?_⟩
      · simp [tier4_resolve, hres, ht]
      · rw [← ht]
        exact List.length_take_le 10 _
      · rw [← ht]
        exact htlen
      · rw [← ht]
        exact List.Pairwise.sublist (List.take_sublist 10 _) hsorted
      · intro e he
        rw [← ht] at he
        exact hperm.mem_iff.mp (List.take_subset 10 _ he)

/-- Witness for `resolve_bulk_disambiguation`: a single bulk match resolves
directly. -/
theorem resolve_bulk_disambiguation_witness :
    get_company_code "테스트" .raised (.got 200 (.corps [⟨"테스트상사", "11111111", ""⟩])) =
      (.found "11111111", [.corporationJson, .corpCodeBulk],
        [Msg.info "회사를 API를 통해 검색 중입니다"]) :=
  (resolve_bulk_disambiguation "테스트" .raised [⟨"테스트상사", "11111111", ""⟩]
    (by decide) (by decide) rfl).1 ⟨"테스트상사", "11111111", "", false⟩ (by decide)

/-- A successful dict lookup means the query is one of the keys. -/
theorem lookup_mem_keys :
    ∀ (l : List (String × String)) (q c : String),
      l.lookup q = some c → q ∈ l.map Prod.fst := by
  intro l
  induction l with
  | nil =>
    intro q c h
    simp [List.lookup] at h
  | cons kv rest ih =>
    obtain ⟨k, v⟩ := kv
    intro q c h
    rw [List.lookup] at h
    cases hqk : q == k with
    | true =>
      simp [beq_iff_eq.mp hqk]
    | false =>
      rw [hqk] at h
      exact List.mem_cons_of_mem _ (ih q c h)

/-- No lowered curated name is a substring of a different lowered curated
name (finite check over the table). -/
theorem lowered_curated_distinct :
    ∀ n ∈ major_companies.map Prod.fst, ∀ m ∈ major_companies.map Prod.fst,
      lowerStr n <:+: lowerStr m → n = m := by decide

/-- Mapping a function over both lists preserves the infix relation. -/
theorem isInfixMap (f : Char → Char) {l₁ l₂ : List Char} (h : l₁ <:+: l₂) :
    l₁.map f <:+: l₂.map f := by
  obtain ⟨s, t, hst⟩ := h
  exact ⟨s.map f, t.map f, by rw [← hst]; simp⟩

/-- Two strings with the same character list are equal. -/
theorem stringToListInj {a b : String} (h : a.toList = b.toList) : a = b := by
  obtain ⟨da⟩ := a
  obtain ⟨db⟩ := b
  simp only [String.toList] at h
  rw [h]

/-- Claim C10: the tier-4 bulk search matches a record iff the lowercased
query is a substring of the lowercased record name, whereas the curated tiers
1-2 compare case-sensitively: a query that differs from a curated name only in
letter case misses both static tiers and falls through to the network tiers. -/
theorem resolver_case_sensitivity :
    (∀ (q : String) (entries : List RawCorp) (rec : RawCorp),
      rec ∈ entries.filter (bulkMatch q) ↔
        rec ∈ entries ∧ lowerStr q <:+: lowerStr rec.corp_name) ∧
    (∀ q n : String, n ∈ major_companies.map Prod.fst → lowerStr q = lowerStr n → q ≠ n →
      major_companies.lookup q = none ∧
      major_companies.find? (fun nc => pyIn q nc.1 || pyIn nc.1 q) = none ∧
      ∀ (t3 : Tier3Result) (bulk : BulkFetch),
        NetCall.corporationJson ∈ (get_company_code q t3 bulk).2.1) := by
  constructor
  · intro q entries rec
    simp [List.mem_filter, bulkMatch]
  · intro q n hn hl hq
    have hlen : q.toList.length = n.toList.length := by
      have := congrArg List.length hl
      simpa [lowerStr] using this
    have hlook : major_companies.lookup q = none := by
      cases h : major_companies.lookup q with
      | none => rfl
      | some c =>
        exact absurd (lowered_curated_distinct q (lookup_mem_keys _ q c h) n hn
          (by rw [hl])) hq
    have hfind : major_companies.find? (fun nc => pyIn q nc.1 || pyIn nc.1 q) = none := by
      cases h : major_companies.find? (fun nc => pyIn q nc.1 || pyIn nc.1 q) with
      | none => rfl
      | some nc =>
        have hp := List.find?_some h
        have hm : nc.1 ∈ major_companies.map Prod.fst :=
          List.mem_map_of_mem _ (List.mem_of_find?_eq_some h)
        rcases (Bool.or_eq_true _ _).mp hp with hab | hba
        · have hsub : q.toList <:+: nc.1.toList := of_decide_eq_true hab
          have hinf : lowerStr q <:+: lowerStr nc.1 := by
            simpa [lowerStr] using isInfixMap Char.toLower hsub
          have hnm : n = nc.1 :=
            lowered_curated_distinct n hn nc.1 hm (by rw [← hl]; exact hinf)
          rw [← hnm] at hsub
          exact absurd (stringToListInj (hsub.sublist.eq_of_length hlen)) hq
        · have hsub : nc.1.toList <:+: q.toList := of_decide_eq_true hba
          have hinf : lowerStr nc.1 <:+: lowerStr q := by
            simpa [lowerStr] using isInfixMap Char.toLower hsub
          have hnm : nc.1 = n :=
            lowered_curated_distinct nc.1 hm n hn (by rw [← hl]; exact hinf)
          rw [hnm] at hsub
          exact absurd (stringToListInj (hsub.sublist.eq_of_length hlen.symm)).symm hq
    refine ⟨hlook, hfind, ?_⟩
    intro t3 bulk
    cases t3 with
    | raised => simp [get_company_code, hlook, hfind, tier4_calls]
    | data status lst =>
      by_cases hs : status = some "000"
      · rcases lst with _ | (_ | ⟨it, rest⟩) <;>
          simp [get_company_code, hlook, hfind, hs, tier4_calls]
      · simp [get_company_code, hlook, hfind, hs, tier4_calls]

/-- Witness for `resolver_case_sensitivity`: `naver` differs from the curated
`NAVER` only in case, misses both static tiers, and goes to the network. -/
theorem resolver_case_sensitivity_witness :
    major_companies.lookup "naver" = none ∧
      major_companies.find? (fun nc => pyIn "naver" nc.1 || pyIn nc.1 "naver") = none ∧
      NetCall.corporationJson ∈ (get_company_code "naver" .raised .raised).2.1 := by
  obtain ⟨ha, hb, hc⟩ :=
    resolver_case_sensitivity.2 "naver" "NAVER" (by decide) (by decide) (by decide)
  exact ⟨ha, hb, hc .raised .raised⟩

/-- Membership in the accumulated column union. -/
theorem mem_dataFrameColumns_aux :
    ∀ (rows : List Row) (acc : List String) (c : String),
      (c ∈ rows.foldl (fun acc r => acc ++ (rowKeys r).filter (fun k => !acc.contains k)) acc ↔
        c ∈ acc ∨ ∃ r ∈ rows, c ∈ rowKeys r) := by
  intro rows
  induction rows with
  | nil =>
    intro acc c
    simp
  | cons r rs ih =>
    intro acc c
    rw [List.foldl_cons, ih]
    by_cases hc : c ∈ acc <;> simp [hc, List.mem_filter]

/-- A column name appears in `dataFrameColumns rows` iff some row has it. -/
theorem mem_dataFrameColumns (rows : List Row) (c : String) :
    c ∈ dataFrameColumns rows ↔ ∃ r ∈ rows, c ∈ rowKeys r := by
  unfold dataFrameColumns
  rw [mem_dataFrameColumns_aux]
  simp

/-- Claim C7: after a successful fetch the rows are projected onto the fixed
preferred column set; when none of those columns appear in the rows the
operation exposes every column and signals a warning instead of failing. -/
theorem fetch_column_projection (rows : List Row) :
    ((∀ c ∈ desired_columns, c ∉ dataFrameColumns rows) →
      select_output_columns (dataFrameColumns rows) =
        (dataFrameColumns rows, [Msg.warning "원하는 열이 데이터에 없습니다"])) ∧
    ((∃ c ∈ desired_columns, c ∈ dataFrameColumns rows) →
      (select_output_columns (dataFrameColumns rows)).1 =
          available_columns (dataFrameColumns rows) ∧
        (select_output_columns (dataFrameColumns rows)).1 ≠ [] ∧
        (select_output_columns (dataFrameColumns rows)).2 = []) ∧
    (∀ c, c ∈ dataFrameColumns rows ↔ ∃ r ∈ rows, c ∈ rowKeys r) := by
  refine ⟨?_, ?_, fun c => mem_dataFrameColumns rows c⟩
  · intro h
    have hfil : available_columns (dataFrameColumns rows) = [] := by
      unfold available_columns
      rw [List.filter_eq_nil_iff]
      intro a ha
      simpa using h a ha
    unfold select_output_columns
    rw [if_pos hfil]
  · intro h
    obtain ⟨c, hc, hcc⟩ := h
    have hne : available_columns (dataFrameColumns rows) ≠ [] := by
      intro heq
      unfold available_columns at heq
      have := List.filter_eq_nil_iff.mp heq c hc
      simp at this
      exact this hcc
    unfold select_output_columns
    rw [if_neg hne]
    exact ⟨rfl, hne, rfl⟩

/-- Witness for `fetch_column_projection`: a row set with a non-standard
schema yields every column plus a warning. -/
theorem fetch_column_projection_witness :
    select_output_columns (dataFrameColumns [[("foo", "1")]]) =
      (dataFrameColumns [[("foo", "1")]], [Msg.warning "원하는 열이 데이터에 없습니다"]) :=
  (fetch_column_projection [[("foo", "1")]]).1 (by decide)

/-- `get_financial_statement` walks exactly the variant list of
`cascadeVariants` in the `runCascade` discipline. -/
theorem gfs_eq_runCascade (b : ReportParams → Option DartResponse)
    (todayYear : Int) (corp_code : String) (year : Int) :
    get_financial_statement b todayYear corp_code year =
      runCascade b (cascadeVariants corp_code year todayYear) [] := by
  by_cases hy : year = todayYear
  · subst hy
    cases h1 : b ⟨corp_code, year, "11011", "CFS"⟩ with
    | none => simp [get_financial_statement, cascadeVariants, runCascade, h1]
    | some d1 =>
      by_cases s1 : statusFailed d1
      · cases h2 : b ⟨corp_code, year, "11011", "OFS"⟩ with
        | none => simp [get_financial_statement, cascadeVariants, runCascade, h1, h2, s1]
        | some d2 =>
          by_cases s2 : statusFailed d2
          · cases h3 : b ⟨corp_code, year, "11014", "OFS"⟩ with
            | none =>
              simp [get_financial_statement, cascadeVariants, runCascade, h1, h2, h3, s1, s2]
            | some d3 =>
              by_cases s3 : statusFailed d3
              · cases h4 : b ⟨corp_code, year, "11013", "OFS"⟩ with
                | none =>
                  simp [get_financial_statement, cascadeVariants, runCascade,
                    h1, h2, h3, h4, s1, s2, s3]
                | some d4 =>
                  by_cases s4 : statusFailed d4
                  · cases h5 : b ⟨corp_code, year - 1, "11011", "OFS"⟩ with
                    | none =>
                      simp [get_financial_statement, cascadeVariants, runCascade,
                        h1, h2, h3, h4, h5, s1, s2, s3, s4]
                    | some d5 =>
                      by_cases s5 : statusFailed d5 <;>
                        simp [get_financial_statement, cascadeVariants, runCascade, fetchFinal,
                          h1, h2, h3, h4, h5, s1, s2, s3, s4, s5]
                  · simp [get_financial_statement, cascadeVariants, runCascade,
                      h1, h2, h3, h4, s1, s2, s3, s4]
              · simp [get_financial_statement, cascadeVariants, runCascade,
                  h1, h2, h3, s1, s2, s3]
          · simp [get_financial_statement, cascadeVariants, runCascade, h1, h2, s1, s2]
      · simp [get_financial_statement, cascadeVariants, runCascade, h1, s1]
  · cases h1 : b ⟨corp_code, year, "11011", "CFS"⟩ with
    | none => simp [get_financial_statement, cascadeVariants, runCascade, h1, hy]
    | some d1 =>
      by_cases s1 : statusFailed d1
      · cases h2 : b ⟨corp_code, year, "11011", "OFS"⟩ with
        | none => simp [get_financial_statement, cascadeVariants, runCascade, h1, h2, s1, hy]
        | some d2 =>
          by_cases s2 : statusFailed d2
          · cases h3 : b ⟨corp_code, year, "11014", "OFS"⟩ with
            | none =>
              simp [get_financial_statement, cascadeVariants, runCascade, h1, h2, h3, s1, s2, hy]
            | some d3 =>
              by_cases s3 : statusFailed d3
              · cases h4 : b ⟨corp_code, year, "11013", "OFS"⟩ with
                | none =>
                  simp [get_financial_statement, cascadeVariants, runCascade,
                    h1, h2, h3, h4, s1, s2, s3, hy]
                | some d4 =>
                  by_cases s4 : statusFailed d4 <;>
                    simp [get_financial_statement, cascadeVariants, runCascade, fetchFinal,
                      h1, h2, h3, h4, s1, s2, s3, s4, hy]
              · simp [get_financial_statement, cascadeVariants, runCascade,
                  h1, h2, h3, s1, s2, s3, hy]
          · simp [get_financial_statement, cascadeVariants, runCascade, h1, h2, s1, s2, hy]
      · simp [get_financial_statement, cascadeVariants, runCascade, h1, s1, hy]

/-- The trace of a cascade run extends the starting trace by a non-empty
prefix (`take k`) of the variant list. -/
theorem runCascade_trace (b : ReportParams → Option DartResponse) :
    ∀ (l trace : List ReportParams),
      ∃ k, 1 ≤ k ∧ (runCascade b l trace).2 = trace ++ l.take k := by
  intro l
  induction l with
  | nil =>
    intro trace
    exact ⟨1, le_refl 1, by simp [runCascade]⟩
  | cons p rest ih =>
    intro trace
    cases hb : b p with
    | none => exact ⟨1, le_refl 1, by simp [runCascade, hb]⟩
    | some d =>
      by_cases hs : statusFailed d
      · obtain ⟨k, hk, he⟩ := ih (trace ++ [p])
        refine ⟨k + 1, by omega, ?_⟩
        simp only [runCascade, hb, hs, if_pos, List.take_succ_cons, he]
        simp
      · exact ⟨1, le_refl 1, by simp [runCascade, hb, hs]⟩

/-- A cascade run from an arbitrary starting trace is the run from the empty
trace with the start prepended. -/
theorem runCascade_shift (b : ReportParams → Option DartResponse) :
    ∀ (l trace : List ReportParams),
      runCascade b l trace =
        ((runCascade b l []).1, trace ++ (runCascade b l []).2) := by
  intro l
  induction l with
  | nil =>
    intro trace
    simp [runCascade]
  | cons p rest ih =>
    intro trace
    cases hb : b p with
    | none => simp [runCascade, hb]
    | some d =>
      by_cases hs : statusFailed d
      · simp only [runCascade, hb, hs, if_pos]
        rw [ih (trace ++ [p]), ih ([] ++ [p])]
        simp
      · simp [runCascade, hb, hs]

/-- A transport error on an issued request makes the whole run report `none`,
and the erroring request is the last one issued. -/
theorem runCascade_transport (b : ReportParams → Option DartResponse) :
    ∀ l : List ReportParams,
      (∃ p ∈ (runCascade b l []).2, b p = none) →
        (runCascade b l []).1 = none ∧
          ∃ p, (runCascade b l []).2.getLast? = some p ∧ b p = none := by
  intro l
  induction l with
  | nil =>
    rintro ⟨p, hp, -⟩
    simp [runCascade] at hp
  | cons q rest ih =>
    rintro ⟨p, hp, hbp⟩
    cases hb : b q with
    | none =>
      refine ⟨by simp [runCascade, hb], q, by simp [runCascade, hb], hb⟩
    | some d =>
      by_cases hs : statusFailed d
      · have hrun : runCascade b (q :: rest) [] =
            ((runCascade b rest []).1, [q] ++ (runCascade b rest []).2) := by
          simp only [runCascade, hb, hs, if_pos]
          rw [runCascade_shift b rest ([] ++ [q])]
          simp
        rw [hrun] at hp ⊢
        simp only [List.mem_append, List.mem_singleton] at hp
        rcases hp with rfl | hp
        · rw [hbp] at hb
          exact absurd hb (by simp)
        · obtain ⟨h1, p', hp', hbp'⟩ := ih ⟨p, hp, hbp⟩
          refine ⟨h1, p', ?_, hbp'⟩
          rw [List.getLast?_append, hp', Option.or_some]
      · rw [show runCascade b (q :: rest) [] = (fetchFinal d, [q]) by
          simp [runCascade, hb, hs]] at hp
        simp only [List.mem_singleton] at hp
        subst hp
        rw [hbp] at hb
        exact absurd hb (by simp)

/-- Inversion of the final checks: a `some` result means a non-failing status
and a present, non-empty row list. -/
theorem fetchFinal_some {d : DartResponse} {rows : List Row} (h : fetchFinal d = some rows) :
    statusFailed d = false ∧ d.rows = some rows ∧ rows ≠ [] := by
  cases hs : statusFailed d with
  | true =>
    unfold fetchFinal at h
    rw [hs] at h
    simp at h
  | false =>
    unfold fetchFinal at h
    rw [hs] at h
    simp only [Bool.false_eq_true, if_false] at h
    rcases hd : d.rows with - | rs
    · rw [hd] at h
      simp at h
    · rw [hd] at h
      cases rs with
      | nil => simp at h
      | cons r rs' =>
        simp only [Option.some.injEq] at h
        exact ⟨rfl, by rw [h], by rw [← h]; simp⟩

/-- A `some rows` outcome comes from the response of the last issued request:
well-formed, non-failing status, with exactly those (non-empty) rows. -/
theorem runCascade_success (b : ReportParams → Option DartResponse) :
    ∀ (l : List ReportParams) (rows : List Row),
      (runCascade b l []).1 = some rows →
        rows ≠ [] ∧ ∃ p d, (runCascade b l []).2.getLast? = some p ∧ b p = some d ∧
          statusFailed d = false ∧ d.rows = some rows := by
  intro l
  induction l with
  | nil =>
    intro rows h
    simp [runCascade] at h
  | cons q rest ih =>
    intro rows h
    cases hb : b q with
    | none =>
      rw [show runCascade b (q :: rest) [] = (none, [] ++ [q]) by
        simp [runCascade, hb]] at h
      simp at h
    | some d =>
      by_cases hs : statusFailed d
      · have hrun : runCascade b (q :: rest) [] =
            ((runCascade b rest []).1, [q] ++ (runCascade b rest []).2) := by
          simp only [runCascade, hb, hs, if_pos]
          rw [runCascade_shift b rest ([] ++ [q])]
          simp
        rw [hrun] at h ⊢
        obtain ⟨hne, p, d', hp, hbp, hsf, hrows⟩ := ih rows h
        refine ⟨hne, p, d', ?_, hbp, hsf, hrows⟩
        rw [List.getLast?_append, hp, Option.or_some]
      · rw [show runCascade b (q :: rest) [] = (fetchFinal d, [] ++ [q]) by
          simp [runCascade, hb, hs]] at h ⊢
        obtain ⟨hsf, hrows, hne⟩ := fetchFinal_some h
        exact ⟨hne, q, d, by simp, hb, hsf, hrows⟩

/-- If the response of the last issued request has a non-failing status, the
run's result is exactly `fetchFinal` of that response. -/
theorem runCascade_last_ok (b : ReportParams → Option DartResponse) :
    ∀ (l : List ReportParams) (p : ReportParams) (d : DartResponse),
      (runCascade b l []).2.getLast? = some p → b p = some d → statusFailed d = false →
        (runCascade b l []).1 = fetchFinal d := by
  intro l
  induction l with
  | nil =>
    intro p d hp _ _
    simp [runCascade] at hp
  | cons q rest ih =>
    intro p d hp hbp hsf
    cases hb : b q with
    | none =>
      rw [show runCascade b (q :: rest) [] = (none, [] ++ [q]) by
        simp [runCascade, hb]] at hp ⊢
      simp at hp
      subst hp
      rw [hbp] at hb
      exact absurd hb (by simp)
    | some d' =>
      by_cases hs : statusFailed d'
      · have hrun : runCascade b (q :: rest) [] =
            ((runCascade b rest []).1, [q] ++ (runCascade b rest []).2) := by
          simp only [runCascade, hb, hs, if_pos]
          rw [runCascade_shift b rest ([] ++ [q])]
          simp
        rw [hrun] at hp ⊢
        cases hr : (runCascade b rest []).2.getLast? with
        | none =>
          have hnil : (runCascade b rest []).2 = [] := by
            rwa [List.getLast?_eq_none_iff] at hr
          rw [hnil] at hp
          simp at hp
          subst hp
          rw [hbp] at hb
          injection hb with hb'
          rw [← hb'] at hs
          rw [hsf] at hs
          simp at hs
        | some p' =>
          rw [List.getLast?_append, hr] at hp
          simp only [Option.or_some] at hp
          injection hp with hpp
          subst hpp
          exact ih _ d hr hbp hsf
      · rw [show runCascade b (q :: rest) [] = (fetchFinal d', [] ++ [q]) by
          simp [runCascade, hb, hs]] at hp ⊢
        simp at hp
        subst hp
        rw [hbp] at hb
        injection hb with hb'
        exact (congrArg fetchFinal hb').symm

/-- The variant list never repeats an exact request. -/
theorem cascadeVariants_nodup (corp_code : String) (year todayYear : Int) :
    (cascadeVariants corp_code year todayYear).Nodup := by
  unfold cascadeVariants
  by_cases hy : year = todayYear
  · simp [hy, List.nodup_cons, ReportParams.mk.injEq]
    omega
  · simp [hy, List.nodup_cons, ReportParams.mk.injEq]

/-- Claim C1 (amended): the requests issued by `get_financial_statement` are
an initial segment of the fixed variant list — `(year, Annual, CFS)`,
`(year, Annual, OFS)`, `(year, 11014, OFS)`, `(year, 11013, OFS)`, and, only
when `year` is the current year, the single retry `(year − 1, Annual, OFS)` —
with at least one request issued and no exact variant issued twice. -/
theorem fetch_cascade_order (b : ReportParams → Option DartResponse)
    (todayYear : Int) (corp_code : String) (year : Int) :
    (get_financial_statement b todayYear corp_code year).2 <+:
        cascadeVariants corp_code year todayYear ∧
      (get_financial_statement b todayYear corp_code year).2 ≠ [] ∧
      (get_financial_statement b todayYear corp_code year).2.Nodup := by
  rw [gfs_eq_runCascade]
  obtain ⟨k, hk, he⟩ := runCascade_trace b (cascadeVariants corp_code year todayYear) []
  rw [List.nil_append] at he
  rw [he]
  refine ⟨List.take_prefix k _, ?_, ?_⟩
  · have hvne : cascadeVariants corp_code year todayYear ≠ [] := by
      unfold cascadeVariants
      by_cases hy : year = todayYear <;> simp [hy]
    rw [Ne, List.take_eq_nil_iff]
    rintro (rfl | h)
    · omega
    · exact hvne h
  · exact List.Nodup.sublist (List.take_sublist k _)
      (cascadeVariants_nodup corp_code year todayYear)

/-- Counterexample to claim C1 as stated: with every response a well-formed
rejection, a current-year run issues the report-code-`11013` variant, which is
not among the spec's listed variants, and never issues the spec's prior-year
consolidated retry `(year − 1, Annual, CFS)`. -/
theorem fetch_cascade_claim_cex :
    (get_financial_statement failBackend 2025 "X" 2025).2 =
        [⟨"X", 2025, "11011", "CFS"⟩, ⟨"X", 2025, "11011", "OFS"⟩, ⟨"X", 2025, "11014", "OFS"⟩,
         ⟨"X", 2025, "11013", "OFS"⟩, ⟨"X", 2024, "11011", "OFS"⟩] ∧
      (⟨"X", 2024, "11011", "CFS"⟩ : ReportParams) ∉
        (get_financial_statement failBackend 2025 "X" 2025).2 ∧
      (⟨"X", 2025, "11013", "OFS"⟩ : ReportParams) ∈
        (get_financial_statement failBackend 2025 "X" 2025).2 ∧
      (⟨"X", 2025, "11013", "OFS"⟩ : ReportParams) ∉ specCascade "X" 2025 ∧
      (⟨"X", 2024, "11011", "CFS"⟩ : ReportParams) ∈ specCascade "X" 2025 := by
  decide

/-- A run that ends on a well-formed failing-status response has walked the
whole variant list — every earlier rejection advanced to the next variant —
and reports `none`. -/
theorem runCascade_last_failed (b : ReportParams → Option DartResponse) :
    ∀ (l : List ReportParams) (p : ReportParams) (d : DartResponse),
      (runCascade b l []).2.getLast? = some p → b p = some d → statusFailed d = true →
        (runCascade b l []).2 = l ∧ (runCascade b l []).1 = none := by
  intro l
  induction l with
  | nil =>
    intro p d hp _ _
    simp [runCascade] at hp
  | cons q rest ih =>
    intro p d hp hbp hsf
    cases hb : b q with
    | none =>
      rw [show runCascade b (q :: rest) [] = (none, [] ++ [q]) by
        simp [runCascade, hb]] at hp ⊢
      simp at hp
      subst hp
      rw [hbp] at hb
      exact absurd hb (by simp)
    | some d' =>
      by_cases hs : statusFailed d'
      · have hrun : runCascade b (q :: rest) [] =
            ((runCascade b rest []).1, [q] ++ (runCascade b rest []).2) := by
          simp only [runCascade, hb, hs, if_pos]
          rw [runCascade_shift b rest ([] ++ [q])]
          simp
        rw [hrun] at hp ⊢
        cases hr : (runCascade b rest []).2.getLast? with
        | none =>
          have hnil : (runCascade b rest []).2 = [] := by
            rwa [List.getLast?_eq_none_iff] at hr
          have hrestnil : rest = [] := by
            obtain ⟨k, hk, he⟩ := runCascade_trace b rest []
            rw [List.nil_append] at he
            rw [he] at hnil
            rcases List.take_eq_nil_iff.mp hnil with h | h
            · omega
            · exact h
          subst hrestnil
          exact ⟨by simp [hnil], by simp [runCascade]⟩
        | some p' =>
          rw [List.getLast?_append, hr] at hp
          simp only [Option.or_some] at hp
          injection hp with hpp
          subst hpp
          obtain ⟨ht, hres⟩ := ih _ d hr hbp hsf
          exact ⟨by simp [ht], hres⟩
      · rw [show runCascade b (q :: rest) [] = (fetchFinal d', [] ++ [q]) by
          simp [runCascade, hb, hs]] at hp ⊢
        simp at hp
        subst hp
        rw [hbp] at hb
        injection hb with hb'
        rw [← hb'] at hs
        exact absurd hsf hs

/-- Claim C2 (amended): a transport error at any cascade step aborts the run
— the result is `NotFound` and the erroring request is the last one issued; a
successful result always carries a non-empty row list taken from the last
response; a last response with a non-failing status but missing or empty rows
ends the run as `NotFound` without further requests; and a well-formed
failing-status response always advances to the next variant — a run that ends
on one has issued the entire variant list, so rejections alone report
`NotFound` only at exhaustion. -/
theorem fetch_failure_semantics (b : ReportParams → Option DartResponse)
    (todayYear : Int) (corp_code : String) (year : Int) :
    ((∃ p ∈ (get_financial_statement b todayYear corp_code year).2, b p = none) →
      (get_financial_statement b todayYear corp_code year).1 = none ∧
        ∃ p, (get_financial_statement b todayYear corp_code year).2.getLast? = some p ∧
          b p = none) ∧
    (∀ rows, (get_financial_statement b todayYear corp_code year).1 = some rows →
      rows ≠ [] ∧
        ∃ p d, (get_financial_statement b todayYear corp_code year).2.getLast? = some p ∧
          b p = some d ∧ statusFailed d = false ∧ d.rows = some rows) ∧
    (∀ p d, (get_financial_statement b todayYear corp_code year).2.getLast? = some p →
      b p = some d → statusFailed d = false → (d.rows = none ∨ d.rows = some []) →
      (get_financial_statement b todayYear corp_code year).1 = none) ∧
    (∀ p d, (get_financial_statement b todayYear corp_code year).2.getLast? = some p →
      b p = some d → statusFailed d = true →
      (get_financial_statement b todayYear corp_code year).2 =
          cascadeVariants corp_code year todayYear ∧
        (get_financial_statement b todayYear corp_code year).1 = none) := by
  rw [gfs_eq_runCascade]
  refine ⟨runCascade_transport b _, runCascade_success b _, ?_, ?_⟩
  · intro p d h1 h2 h3 h4
    rw [runCascade_last_ok b _ p d h1 h2 h3]
    unfold fetchFinal
    rw [h3]
    rcases h4 with h4 | h4 <;> simp [h4]
  · intro p d h1 h2 h3
    exact runCascade_last_failed b _ p d h1 h2 h3

/-- Witness for `fetch_failure_semantics`: a backend that raises on the very
first request aborts after one request, and a backend rejecting every variant
(`failBackend`) is advanced past each rejection until the whole current-year
variant list — all five requests — has been issued. -/
theorem fetch_failure_semantics_witness :
    ((get_financial_statement cexBackend 2025 "X" 2025).1 = none ∧
      ∃ p, (get_financial_statement cexBackend 2025 "X" 2025).2.getLast? = some p ∧
        cexBackend p = none) ∧
    ((get_financial_statement failBackend 2025 "X" 2025).2 =
        cascadeVariants "X" 2025 2025 ∧
      (get_financial_statement failBackend 2025 "X" 2025).1 = none) :=
  ⟨(fetch_failure_semantics cexBackend 2025 "X" 2025).1
    ⟨⟨"X", 2025, "11011", "CFS"⟩, by decide, by decide⟩,
   (fetch_failure_semantics failBackend 2025 "X" 2025).2.2.2
    ⟨"X", 2024, "11011", "OFS"⟩ ⟨some "013", none⟩ (by decide) (by decide) (by decide)⟩

/-- Counterexample to claim C2 as stated: a transport error on the first
(consolidated) request makes `get_financial_statement` return `NotFound`
without trying the standalone variant — which the same backend would have
answered successfully with rows — and a successful-but-empty response likewise
stops the cascade after one request instead of advancing. -/
theorem fetch_transport_abort_cex :
    get_financial_statement cexBackend 2025 "X" 2025 =
        (none, [⟨"X", 2025, "11011", "CFS"⟩]) ∧
      cexBackend ⟨"X", 2025, "11011", "OFS"⟩ = some ⟨some "000", some okRows⟩ ∧
      okRows ≠ [] ∧
      get_financial_statement emptyBackend 2025 "X" 2025 =
        (none, [⟨"X", 2025, "11011", "CFS"⟩]) := by
  decide

/-- Claim C9: `get_financial_statement` is deterministic — two runs with
identical arguments against backends that answer every request identically
issue the same request sequence and return the same result. -/
theorem fetch_deterministic (b1 b2 : ReportParams → Option DartResponse)
    (todayYear : Int) (corp_code : String) (year : Int)
    (h : ∀ p, b1 p = b2 p) :
    get_financial_statement b1 todayYear corp_code year =
      get_financial_statement b2 todayYear corp_code year := by
  have hb : b1 = b2 := funext h
  rw [hb]

/-- Witness for `fetch_deterministic`. -/
theorem fetch_deterministic_witness :
    get_financial_statement failBackend 2025 "X" 2025 =
      get_financial_statement (fun p => failBackend p) 2025 "X" 2025 :=
  fetch_deterministic failBackend (fun p => failBackend p) 2025 "X" 2025 (fun _ => rfl)

